import Mathlib

/- Formal model of src/image_picker.py (Image Shortlisting Tool).

   Filesystem paths are modelled as lists of name components, mirroring the
   parts tuple of a pathlib.PurePath; strings compare by code point exactly as
   Python str comparison does, and paths compare by the lexicographic order on
   their parts tuples, which is how sorted() orders pathlib Path objects. -/

/-- Components of a filesystem path, as in pathlib's parts tuple. -/
abbrev ImagePath := List String

/-- Code-point lexicographic strict order on character lists; Python str lt. -/
def charsLt : List Char → List Char → Bool
  | [], [] => false
  | [], _ :: _ => true
  | _ :: _, [] => false
  | a :: as, b :: bs =>
    if a < b then true
    else if b < a then false
    else charsLt as bs

/-- Python string strict comparison (code-point lexicographic). -/
def strLt (a b : String) : Bool := charsLt a.data b.data

/-- Non-strict lexicographic order on path component lists; this is tuple
    comparison of parts, which is how pathlib Path objects sort. -/
def pathLe : ImagePath → ImagePath → Bool
  | [], _ => true
  | _ :: _, [] => false
  | a :: as, b :: bs =>
    if strLt a b then true
    else if strLt b a then false
    else pathLe as bs

theorem charsLt_irrefl (x : List Char) : charsLt x x = false := by
  induction x with
  | nil => rfl
  | cons a as ih => simp [charsLt, ih]

theorem charsLt_eq_of_not {x y : List Char} (h1 : charsLt x y = false)
    (h2 : charsLt y x = false) : x = y := by
  induction x generalizing y with
  | nil =>
    cases y with
    | nil => rfl
    | cons b bs => simp [charsLt] at h1
  | cons a as ih =>
    cases y with
    | nil => simp [charsLt] at h2
    | cons b bs =>
      by_cases hab : a < b
      · simp [charsLt, hab] at h1
      · by_cases hba : b < a
        · simp [charsLt, hba] at h2
        · have hEq : a = b := le_antisymm (not_lt.mp hba) (not_lt.mp hab)
          subst hEq
          simp only [charsLt, if_neg (lt_irrefl a)] at h1 h2
          rw [ih h1 h2]

theorem charsLt_trans {x y z : List Char} (h1 : charsLt x y = true)
    (h2 : charsLt y z = true) : charsLt x z = true := by
  induction x generalizing y z with
  | nil =>
    cases y with
    | nil => simp [charsLt] at h1
    | cons b bs =>
      cases z with
      | nil => simp [charsLt] at h2
      | cons c cs => simp [charsLt]
  | cons a as ih =>
    cases y with
    | nil => simp [charsLt] at h1
    | cons b bs =>
      cases z with
      | nil => simp [charsLt] at h2
      | cons c cs =>
        by_cases hab : a < b
        · by_cases hbc : b < c
          · simp [charsLt, lt_trans hab hbc]
          · by_cases hcb : c < b
            · simp [charsLt, hbc, hcb] at h2
            · have hEq : b = c := le_antisymm (not_lt.mp hcb) (not_lt.mp hbc)
              subst hEq
              simp [charsLt, hab]
        · by_cases hba : b < a
          · simp [charsLt, hab, hba] at h1
          · have hEq : a = b := le_antisymm (not_lt.mp hba) (not_lt.mp hab)
            subst hEq
            simp only [charsLt, if_neg (lt_irrefl a)] at h1
            by_cases hac : a < c
            · simp [charsLt, hac]
            · by_cases hca : c < a
              · simp [charsLt, hac, hca] at h2
              · have hEq2 : a = c := le_antisymm (not_lt.mp hca) (not_lt.mp hac)
                subst hEq2
                simp only [charsLt, if_neg (lt_irrefl a)] at h2 ⊢
                exact ih h1 h2

theorem strLt_irrefl (a : String) : strLt a a = false := charsLt_irrefl a.data

theorem strLt_eq_of_not {a b : String} (h1 : strLt a b = false)
    (h2 : strLt b a = false) : a = b := by
  cases a with
  | mk x =>
    cases b with
    | mk y =>
      have : x = y := charsLt_eq_of_not h1 h2
      rw [this]

theorem strLt_trans {a b c : String} (h1 : strLt a b = true)
    (h2 : strLt b c = true) : strLt a c = true :=
  charsLt_trans h1 h2

theorem pathLe_refl (p : ImagePath) : pathLe p p = true := by
  induction p with
  | nil => rfl
  | cons a as ih => simp [pathLe, strLt_irrefl, ih]

theorem pathLe_total (a b : ImagePath) : pathLe a b = true ∨ pathLe b a = true := by
  induction a generalizing b with
  | nil => exact Or.inl rfl
  | cons x xs ih =>
    cases b with
    | nil => exact Or.inr rfl
    | cons y ys =>
      by_cases hxy : strLt x y = true
      · left; simp [pathLe, hxy]
      · by_cases hyx : strLt y x = true
        · right; simp [pathLe, hyx]
        · have hEq : x = y :=
            strLt_eq_of_not (Bool.eq_false_iff.mpr hxy) (Bool.eq_false_iff.mpr hyx)
          subst hEq
          cases ih ys with
          | inl h => left; simp [pathLe, strLt_irrefl, h]
          | inr h => right; simp [pathLe, strLt_irrefl, h]

theorem pathLe_trans {a b c : ImagePath} (h1 : pathLe a b = true)
    (h2 : pathLe b c = true) : pathLe a c = true := by
  induction a generalizing b c with
  | nil => rfl
  | cons x xs ih =>
    cases b with
    | nil => simp [pathLe] at h1
    | cons y ys =>
      cases c with
      | nil => simp [pathLe] at h2
      | cons z zs =>
        by_cases hxy : strLt x y = true
        · by_cases hyz : strLt y z = true
          · simp [pathLe, strLt_trans hxy hyz]
          · by_cases hzy : strLt z y = true
            · simp [pathLe, hyz, hzy] at h2
            · have hEq : y = z :=
                strLt_eq_of_not (Bool.eq_false_iff.mpr hyz) (Bool.eq_false_iff.mpr hzy)
              subst hEq
              simp [pathLe, hxy]
        · by_cases hyx : strLt y x = true
          · simp [pathLe, hxy, hyx] at h1
          · have hEq : x = y :=
              strLt_eq_of_not (Bool.eq_false_iff.mpr hxy) (Bool.eq_false_iff.mpr hyx)
            subst hEq
            simp only [pathLe, if_neg (by simp [strLt_irrefl] : ¬strLt x x = true)] at h1
            by_cases hxz : strLt x z = true
            · simp [pathLe, hxz]
            · by_cases hzx : strLt z x = true
              · simp [pathLe, hxz, hzx] at h2
              · have hEq2 : x = z :=
                  strLt_eq_of_not (Bool.eq_false_iff.mpr hxz) (Bool.eq_false_iff.mpr hzx)
                subst hEq2
                simp only [pathLe,
                  if_neg (by simp [strLt_irrefl] : ¬strLt x x = true)] at h2 ⊢
                exact ih h1 h2

/-- The path order as a Prop-valued relation, for use with insertionSort. -/
def pathLeR : ImagePath → ImagePath → Prop := fun a b => pathLe a b = true

instance : DecidableRel pathLeR := fun a b =>
  inferInstanceAs (Decidable (pathLe a b = true))

instance : IsTotal ImagePath pathLeR := ⟨pathLe_total⟩

instance : IsTrans ImagePath pathLeR := ⟨fun _ _ _ => pathLe_trans⟩

/-- One entry produced by the recursive directory walk rglob("*"): its path
    and whether it is a regular file (directories are yielded too, and a
    directory name can carry a suffix). -/
structure FSEntry where
  path : ImagePath
  isFile : Bool
deriving DecidableEq, Repr

/-- Filesystem as seen by scan_images: whether the root directory exists, and
    the entries that root_dir.rglob("*") yields.  A nonexistent root yields no
    entries: pathlib's glob machinery suppresses the OSError and produces an
    empty iteration instead of raising. -/
structure FileSystem where
  rootExists : Bool
  entries : List FSEntry
  no_root_no_entries : rootExists = false → entries = []

/-- Index of the last dot in a name, as Python str.rfind of a dot. -/
def rfindDot : List Char → Option Nat
  | [] => none
  | c :: cs =>
    match rfindDot cs with
    | some i => some (i + 1)
    | none => if c = '.' then some 0 else none

/-- Python pathlib suffix of a final path component: the substring from the
    last dot, unless that dot is leading or trailing, in which case empty. -/
def pySuffix (name : List Char) : List Char :=
  match rfindDot name with
  | some i => if 0 < i ∧ i < name.length - 1 then name.drop i else []
  | none => []

/-- The fixed set of recognized extensions (SUPPORTED_EXTENSIONS). -/
def SUPPORTED_EXTENSIONS : List (List Char) := [".jpg".data, ".jpeg".data, ".png".data]

/-- Final component of a path (pathlib name); empty for a bare root. -/
def pathName (p : ImagePath) : List Char := (p.getLastD "").data

/-- The membership test of scan_images on one path: take the pathlib suffix of
    the final component, lowercase it, and test membership in the extension
    set.  Char.toLower is ASCII lowercasing; Python str.lower agrees with it on
    every string whose lowercase form could equal one of the three ASCII
    extensions, which is all this Bool depends on. -/
def hasSupportedSuffix (p : ImagePath) : Bool :=
  SUPPORTED_EXTENSIONS.contains ((pySuffix (pathName p)).map Char.toLower)

/-- scan_images: iterate sorted(root_dir.rglob("*")) and collect every path
    whose lowercased suffix is recognized.  Nothing here asks whether the path
    is a regular file, and no error is raised for a missing root (the walk then
    yields nothing).  rglob yields each filesystem entry once, so the path list
    is duplicate-free and sorting by the total path order models sorted()
    exactly. -/
def scan_images (fs : FileSystem) : List ImagePath :=
  (List.insertionSort pathLeR (fs.entries.map FSEntry.path)).filter hasSupportedSuffix

/-- Modelled from the spec words for comparison only: the spec says the scan
    returns exactly the regular files with a recognized suffix, so this variant
    keeps only entries with isFile set before sorting and filtering. -/
def scan_images_files_only (fs : FileSystem) : List ImagePath :=
  (List.insertionSort pathLeR
    ((fs.entries.filter FSEntry.isFile).map FSEntry.path)).filter hasSupportedSuffix

/-- The scan failure the spec names. -/
inductive ScanError where
  | rootMissing
deriving DecidableEq, Repr

/-- scan_images seen as a fallible operation.  The Python function body
    contains no raise statement and rglob does not raise for a missing root,
    so every run returns normally with the scanned list. -/
def scan_imagesE (fs : FileSystem) : Except ScanError (List ImagePath) :=
  Except.ok (scan_images fs)

/-- JSON fragment the state file uses: objects with string and int values. -/
inductive Json where
  | str (s : String)
  | int (n : Int)
  | obj (fields : List (String × Json))

/-- The session record the tool persists after each navigation. -/
structure SessionState where
  images_root : String
  output_dir : String
  current_index : Nat
  total_images : Nat
deriving DecidableEq, Repr

/-- The dict literal written by save_state calls, as a JSON object. -/
def sessionToJson (r : SessionState) : Json :=
  Json.obj [("images_root", Json.str r.images_root),
            ("output_dir", Json.str r.output_dir),
            ("current_index", Json.int (r.current_index : Int)),
            ("total_images", Json.int (r.total_images : Int))]

/-- Content of shortlist_state.json: none when the file does not exist,
    otherwise the JSON document it holds.  The textual json.dump followed by
    json.load is the identity on this string/int object fragment, so the file
    is modelled by the parsed value it stores. -/
abbrev StateFile := Option Json

/-- save_state: open the state file for writing and dump the record, replacing
    any previous content. -/
def save_state (state : Json) (_old : StateFile) : StateFile := some state

/-- load_state: if the state file exists, parse and return its document,
    otherwise return None. -/
def load_state (file : StateFile) : Option Json :=
  match file with
  | some j => some j
  | none => none

/-- Python dict subscript on a parsed JSON object (last binding wins, as in
    json.load); none models a KeyError or a non-object document. -/
def jsonGet (j : Json) (key : String) : Option Json :=
  match j with
  | Json.obj fields => ((fields.filter (fun kv => kv.1 == key)).getLast?).map Prod.snd
  | _ => none

/-- Pixel dimensions of the display surface (screen.get_size()). -/
structure Size where
  w : Nat
  h : Nat
deriving DecidableEq, Repr

/-- A decoded pygame surface.  load_surface is deterministic in its two
    inputs (open, EXIF transpose, RGB convert, thumbnail to the screen size),
    so a surface is identified by the path it was decoded from and the screen
    size it was scaled for. -/
structure Surface where
  path : ImagePath
  size : Size
deriving DecidableEq, Repr

/-- load_surface: decode the image at the given path, scaled for the given
    screen size. -/
def load_surface (image_path : ImagePath) (screen_size : Size) : Surface :=
  { path := image_path, size := screen_size }

/-- The immutable data run_viewer closes over: the catalog and the two
    directory strings echoed into every saved session record. -/
structure VCtx where
  images_root : String
  images : List ImagePath
  output_dir : String
deriving DecidableEq, Repr

/-- Mutable state of run_viewer: the index and the five surface/index
    variables, plus the current window size (read back via screen.get_size()
    at each decode). -/
structure ViewerState where
  index : Nat
  current_surface : Option Surface
  next_surface : Option Surface
  next_index : Option Nat
  prev_surface : Option Surface
  prev_index : Option Nat
  screenSize : Size
deriving DecidableEq, Repr

/-- Externally visible actions a step performs, in program order: synchronous
    decodes on the controller thread, preload threads started, session records
    written, copies dispatched. -/
inductive Effect where
  | syncDecode (p : ImagePath) (size : Size)
  | spawnPreload (target : Nat)
  | savedState (st : SessionState)
  | copyImage (p : ImagePath)
deriving DecidableEq, Repr

/-- The one uncaught exception the viewer can raise: list indexing out of
    range. -/
inductive ViewerError where
  | indexError
deriving DecidableEq, Repr

/-- Atomic events of the viewer: the three handled keys, a window resize (the
    event loop has no case for it, but it changes what get_size() returns), the
    completion of one background preload thread, and the top-of-loop redraw. -/
inductive VEvent where
  | keyRight
  | keyLeft
  | keyReturn
  | winResize (newSize : Size)
  | preloadDone (target : Nat) (sizeAtLoad : Size)
  | redraw
deriving DecidableEq, Repr

/-- Body of preload_surface as applied when a worker thread finishes its
    load_surface call: sizeAtLoad is screen.get_size() as read when the decode
    ran, and the target checks compare against the index at delivery time.
    The early return also covers negative targets in Python; spawned targets
    are never negative, so a Nat target is faithful.  A load that raises is
    swallowed (the except clause passes), which is the absence of this
    delivery. -/
def preload_surface (ctx : VCtx) (target : Nat) (sizeAtLoad : Size)
    (s : ViewerState) : ViewerState :=
  if target ≥ ctx.images.length then s
  else
    match ctx.images[target]? with
    | none => s
    | some p =>
      if target = s.index + 1 then
        { s with next_surface := some (load_surface p sizeAtLoad),
                 next_index := some target }
      else if (target : Int) = (s.index : Int) - 1 then
        { s with prev_surface := some (load_surface p sizeAtLoad),
                 prev_index := some target }
      else s

/-- K_RIGHT branch of the event loop.  Inside the guard the new index is
    s.index + 1; prev_index is set to index - 1 after the increment, which is
    the old index.  The new next preload is spawned for index + 1 after the
    increment, that is s.index + 2. -/
def stepRight (ctx : VCtx) (s : ViewerState) :
    Except ViewerError (ViewerState × List Effect) :=
  if s.index < ctx.images.length - 1 then
    match ctx.images[s.index + 1]? with
    | none => Except.error ViewerError.indexError
    | some p =>
      let promoted : Option Surface × List Effect :=
        match s.next_surface with
        | some b =>
          if s.next_index = some (s.index + 1) then (some b, [])
          else (some (load_surface p s.screenSize),
                [Effect.syncDecode p s.screenSize])
        | none =>
          (some (load_surface p s.screenSize),
           [Effect.syncDecode p s.screenSize])
      Except.ok
        ({ index := s.index + 1,
           current_surface := promoted.1,
           next_surface := none, next_index := none,
           prev_surface := s.current_surface, prev_index := some s.index,
           screenSize := s.screenSize },
         promoted.2
           ++ (if s.index + 2 < ctx.images.length
               then [Effect.spawnPreload (s.index + 2)] else [])
           ++ [Effect.savedState
                 { images_root := ctx.images_root, output_dir := ctx.output_dir,
                   current_index := s.index + 1,
                   total_images := ctx.images.length }])
  else Except.ok (s, [])

/-- K_LEFT branch of the event loop.  Inside the guard the new index is
    s.index - 1 with s.index at least 1; next_index is set to index + 1 after
    the decrement, which is the old index.  The new previous preload is
    spawned when index - 1 after the decrement is still nonnegative, that is
    when s.index is at least 2, for target s.index - 2. -/
def stepLeft (ctx : VCtx) (s : ViewerState) :
    Except ViewerError (ViewerState × List Effect) :=
  if 0 < s.index then
    match ctx.images[s.index - 1]? with
    | none => Except.error ViewerError.indexError
    | some p =>
      let promoted : Option Surface × List Effect :=
        match s.prev_surface with
        | some b =>
          if s.prev_index = some (s.index - 1) then (some b, [])
          else (some (load_surface p s.screenSize),
                [Effect.syncDecode p s.screenSize])
        | none =>
          (some (load_surface p s.screenSize),
           [Effect.syncDecode p s.screenSize])
      Except.ok
        ({ index := s.index - 1,
           current_surface := promoted.1,
           next_surface := s.current_surface, next_index := some s.index,
           prev_surface := none, prev_index := none,
           screenSize := s.screenSize },
         promoted.2
           ++ (if 2 ≤ s.index
               then [Effect.spawnPreload (s.index - 2)] else [])
           ++ [Effect.savedState
                 { images_root := ctx.images_root, output_dir := ctx.output_dir,
                   current_index := s.index - 1,
                   total_images := ctx.images.length }])
  else Except.ok (s, [])

/-- Top of the draw loop when current_surface is None: synchronous decode of
    images[index] (an out-of-range index raises IndexError here) and the
    one-time preload threads for the two neighbors. -/
def stepRedraw (ctx : VCtx) (s : ViewerState) :
    Except ViewerError (ViewerState × List Effect) :=
  if s.current_surface = none then
    match ctx.images[s.index]? with
    | none => Except.error ViewerError.indexError
    | some p =>
      Except.ok
        ({ s with current_surface := some (load_surface p s.screenSize) },
         [Effect.syncDecode p s.screenSize]
           ++ (if s.index + 1 < ctx.images.length
               then [Effect.spawnPreload (s.index + 1)] else [])
           ++ (if 1 ≤ s.index
               then [Effect.spawnPreload (s.index - 1)] else []))
  else Except.ok (s, [])

/-- One atomic event of run_viewer applied to the viewer state. -/
def stepV (ctx : VCtx) (e : VEvent) (s : ViewerState) :
    Except ViewerError (ViewerState × List Effect) :=
  match e with
  | VEvent.keyRight => stepRight ctx s
  | VEvent.keyLeft => stepLeft ctx s
  | VEvent.keyReturn =>
    match ctx.images[s.index]? with
    | none => Except.error ViewerError.indexError
    | some p => Except.ok (s, [Effect.copyImage p])
  | VEvent.winResize sz => Except.ok ({ s with screenSize := sz }, [])
  | VEvent.preloadDone t sz => Except.ok (preload_surface ctx t sz s, [])
  | VEvent.redraw => stepRedraw ctx s

/-- State of run_viewer right after its local variables are initialized. -/
def initViewerState (start_index : Nat) (initialScreen : Size) : ViewerState :=
  { index := start_index, current_surface := none,
    next_surface := none, next_index := none,
    prev_surface := none, prev_index := none,
    screenSize := initialScreen }

/-- prompt_resume_operation: rebuild the catalog by re-scanning the stored
    root and hand the persisted current_index to run_viewer unchanged. -/
def prompt_resume_operation (fs : FileSystem) (st : SessionState)
    (initialScreen : Size) : VCtx × ViewerState :=
  ({ images_root := st.images_root, images := scan_images fs,
     output_dir := st.output_dir },
   initViewerState st.current_index initialScreen)

/-- Viewer states reachable from some start of run_viewer under any
    interleaving of key events, resizes, redraws and preload completions. -/
inductive Reachable (ctx : VCtx) : ViewerState → Prop where
  | init (start_index : Nat) (initialScreen : Size) :
      Reachable ctx (initViewerState start_index initialScreen)
  | step (e : VEvent) (s s' : ViewerState) (effs : List Effect) :
      Reachable ctx s → stepV ctx e s = Except.ok (s', effs) → Reachable ctx s'

/-- The window invariant on the two slot target indices. -/
def slotInv (s : ViewerState) : Prop :=
  (∀ j, s.next_index = some j → j = s.index + 1) ∧
  (∀ j, s.prev_index = some j → (j : Int) = (s.index : Int) - 1)

/-- Claim C2: in every reachable viewer state, and in particular after the
    neighbor preloads issued for any current index, the prev slot's target
    index is either None or currentIndex - 1 and the next slot's target index
    is either None or currentIndex + 1, never any other value, under every
    interleaving of preload completions with navigation. -/
theorem C2_slot_invariant {ctx : VCtx} {s : ViewerState}
    (h : Reachable ctx s) : slotInv s := by
  induction h with
  | init start_index initialScreen =>
    constructor
    · intro j hj; simp [initViewerState] at hj
    · intro j hj; simp [initViewerState] at hj
  | step e s s' effs hr hstep ih =>
    cases e with
    | keyRight =>
      simp only [stepV, stepRight] at hstep
      split at hstep
      · split at hstep
        · exact absurd hstep (by simp)
        · simp only [Except.ok.injEq, Prod.mk.injEq] at hstep
          obtain ⟨h1, _⟩ := hstep
          subst h1
          constructor
          · intro j hj; simp at hj
          · intro j hj
            simp at hj
            dsimp only
            omega
      · simp only [Except.ok.injEq, Prod.mk.injEq] at hstep
        obtain ⟨h1, _⟩ := hstep
        subst h1
        exact ih
    | keyLeft =>
      simp only [stepV, stepLeft] at hstep
      split at hstep
      · rename_i hguard
        split at hstep
        · exact absurd hstep (by simp)
        · simp only [Except.ok.injEq, Prod.mk.injEq] at hstep
          obtain ⟨h1, _⟩ := hstep
          subst h1
          constructor
          · intro j hj
            simp at hj
            dsimp only
            omega
          · intro j hj; simp at hj
      · simp only [Except.ok.injEq, Prod.mk.injEq] at hstep
        obtain ⟨h1, _⟩ := hstep
        subst h1
        exact ih
    | keyReturn =>
      simp only [stepV] at hstep
      split at hstep
      · exact absurd hstep (by simp)
      · simp only [Except.ok.injEq, Prod.mk.injEq] at hstep
        obtain ⟨h1, _⟩ := hstep
        subst h1
        exact ih
    | winResize sz =>
      simp only [stepV, Except.ok.injEq, Prod.mk.injEq] at hstep
      obtain ⟨h1, _⟩ := hstep
      subst h1
      obtain ⟨ihn, ihp⟩ := ih
      constructor
      · intro j hj; exact ihn j hj
      · intro j hj; exact ihp j hj
    | preloadDone t sz =>
      simp only [stepV, Except.ok.injEq, Prod.mk.injEq] at hstep
      obtain ⟨h1, _⟩ := hstep
      subst h1
      obtain ⟨ihn, ihp⟩ := ih
      simp only [preload_surface]
      split
      · exact ⟨ihn, ihp⟩
      · split
        · exact ⟨ihn, ihp⟩
        · split
          · rename_i ht
            constructor
            · intro j hj; simp at hj; dsimp only; omega
            · intro j hj; exact ihp j hj
          · split
            · rename_i ht
              constructor
              · intro j hj; exact ihn j hj
              · intro j hj; simp at hj; dsimp only; omega
            · exact ⟨ihn, ihp⟩
    | redraw =>
      simp only [stepV, stepRedraw] at hstep
      split at hstep
      · split at hstep
        · exact absurd hstep (by simp)
        · simp only [Except.ok.injEq, Prod.mk.injEq] at hstep
          obtain ⟨h1, _⟩ := hstep
          subst h1
          obtain ⟨ihn, ihp⟩ := ih
          constructor
          · intro j hj; exact ihn j hj
          · intro j hj; exact ihp j hj
      · simp only [Except.ok.injEq, Prod.mk.injEq] at hstep
        obtain ⟨h1, _⟩ := hstep
        subst h1
        exact ih

instance {ε α : Type} [DecidableEq ε] [DecidableEq α] : DecidableEq (Except ε α) :=
  fun a b =>
    match a, b with
    | Except.ok x, Except.ok y =>
      if h : x = y then Decidable.isTrue (by rw [h])
      else Decidable.isFalse (by intro hc; cases hc; exact h rfl)
    | Except.ok _, Except.error _ => Decidable.isFalse (by intro hc; cases hc)
    | Except.error _, Except.ok _ => Decidable.isFalse (by intro hc; cases hc)
    | Except.error x, Except.error y =>
      if h : x = y then Decidable.isTrue (by rw [h])
      else Decidable.isFalse (by intro hc; cases hc; exact h rfl)

/-- A concrete three-image catalog for the concrete runs below. -/
def ctx3 : VCtx :=
  { images_root := "pics",
    images := [["pics", "a.jpg"], ["pics", "b.jpg"], ["pics", "c.jpg"]],
    output_dir := "out" }

/-- A concrete one-image catalog. -/
def ctx1 : VCtx :=
  { images_root := "pics", images := [["pics", "a.jpg"]], output_dir := "out" }

def size0 : Size := { w := 800, h := 600 }

def size1 : Size := { w := 1024, h := 768 }

/-- State after run_viewer starts at index 0 and the first redraw decodes the
    current image at the initial window size. -/
def s3r : ViewerState :=
  { index := 0, current_surface := some (load_surface ["pics", "a.jpg"] size0),
    next_surface := none, next_index := none,
    prev_surface := none, prev_index := none, screenSize := size0 }

/-- s3r after the user resizes the window to size1: the loop has no handler,
    only the size reported by get_size() changes. -/
def s3rz : ViewerState := { s3r with screenSize := size1 }

/-- s3rz after K_RIGHT: the old current surface, decoded at size0, is parked
    in the prev slot even though the window is now size1. -/
def s3rzR : ViewerState :=
  { index := 1, current_surface := some (load_surface ["pics", "b.jpg"] size1),
    next_surface := none, next_index := none,
    prev_surface := some (load_surface ["pics", "a.jpg"] size0),
    prev_index := some 0, screenSize := size1 }

def effs3rzR : List Effect :=
  [Effect.syncDecode ["pics", "b.jpg"] size1, Effect.spawnPreload 2,
   Effect.savedState { images_root := "pics", output_dir := "out",
                       current_index := 1, total_images := 3 }]

/-- s3r after K_RIGHT at the unchanged window size. -/
def s3rr : ViewerState :=
  { index := 1, current_surface := some (load_surface ["pics", "b.jpg"] size0),
    next_surface := none, next_index := none,
    prev_surface := some (load_surface ["pics", "a.jpg"] size0),
    prev_index := some 0, screenSize := size0 }

/-- Concrete run for the stale-completion analysis: start at index 1, first
    redraw done; the redraw spawned preload threads for targets 2 and 0. -/
def c3b : ViewerState :=
  { index := 1, current_surface := some (load_surface ["pics", "b.jpg"] size0),
    next_surface := none, next_index := none,
    prev_surface := none, prev_index := none, screenSize := size0 }

/-- c3b after K_RIGHT (old current parked in prev, c decoded synchronously). -/
def c3c : ViewerState :=
  { index := 2, current_surface := some (load_surface ["pics", "c.jpg"] size0),
    next_surface := none, next_index := none,
    prev_surface := some (load_surface ["pics", "b.jpg"] size0),
    prev_index := some 1, screenSize := size0 }

/-- c3c after K_LEFT: prev promoted back to current, old current parked in
    next, and a second preload thread spawned for target 0. -/
def c3d : ViewerState :=
  { index := 1, current_surface := some (load_surface ["pics", "b.jpg"] size0),
    next_surface := some (load_surface ["pics", "c.jpg"] size0),
    next_index := some 2,
    prev_surface := none, prev_index := none, screenSize := size0 }

/-- c3d after an unhandled window resize to size1. -/
def c3e : ViewerState := { c3d with screenSize := size1 }

/-- c3e after the fresher of the two in-flight preloads for target 0 (the one
    spawned by the K_LEFT shift, decoded after the resize) is delivered. -/
def c3f : ViewerState :=
  { c3e with prev_surface := some (load_surface ["pics", "a.jpg"] size1),
             prev_index := some 0 }

/-- c3d after K_LEFT (prev slot empty, so a synchronous decode). -/
def c3dL : ViewerState :=
  { index := 0, current_surface := some (load_surface ["pics", "a.jpg"] size0),
    next_surface := some (load_surface ["pics", "b.jpg"] size0),
    next_index := some 1,
    prev_surface := none, prev_index := none, screenSize := size0 }

/-- A state whose next slot holds the preloaded neighbor, ready for
    promotion. -/
def s4 : ViewerState :=
  { index := 0, current_surface := some (load_surface ["pics", "a.jpg"] size0),
    next_surface := some (load_surface ["pics", "b.jpg"] size0),
    next_index := some 1,
    prev_surface := none, prev_index := none, screenSize := size0 }

def s6 : ViewerState := initViewerState 0 size0

/-- The no-promotion policy claim: after NavigateNext from an interior index
    the prev slot is empty or holds a buffer decoded for the new
    currentIndex - 1 at the viewport size in effect at the shift, never the
    promoted outgoing current buffer; symmetrically for NavigatePrev and the
    next slot. -/
def noPromotionClaim : Prop :=
  (∀ (ctx : VCtx) (s s' : ViewerState) (effs : List Effect),
    Reachable ctx s → s.index < ctx.images.length - 1 →
    stepV ctx VEvent.keyRight s = Except.ok (s', effs) →
    s'.prev_surface = none ∨
      ∃ p, ctx.images[s.index]? = some p ∧
        s'.prev_surface = some (load_surface p s'.screenSize)) ∧
  (∀ (ctx : VCtx) (s s' : ViewerState) (effs : List Effect),
    Reachable ctx s → 0 < s.index →
    stepV ctx VEvent.keyLeft s = Except.ok (s', effs) →
    s'.next_surface = none ∨
      ∃ p, ctx.images[s.index]? = some p ∧
        s'.next_surface = some (load_surface p s'.screenSize))

/-- The stale-discard claim in terms of the model: once the newer of two
    completions for the same slot target has been applied, a late completion
    from the older, superseded job (distinguishable by the viewport size it
    decoded for) leaves all observable state unchanged on arrival. -/
def staleDiscardClaim : Prop :=
  ∀ (ctx : VCtx) (s : ViewerState) (t : Nat) (szNew szOld : Size)
    (s' : ViewerState) (effs : List Effect),
    Reachable ctx s →
    stepV ctx (VEvent.preloadDone t szNew) s = Except.ok (s', effs) →
    stepV ctx (VEvent.preloadDone t szOld) s' = Except.ok (s', [])

/-- The resize behavior the spec claims: viewport stored, both slots cleared,
    current buffer synchronously re-decoded for the new size. -/
def resizeClaim : Prop :=
  ∀ (ctx : VCtx) (s : ViewerState) (sz : Size) (s' : ViewerState)
    (effs : List Effect),
    Reachable ctx s →
    stepV ctx (VEvent.winResize sz) s = Except.ok (s', effs) →
    s'.screenSize = sz ∧ s'.prev_surface = none ∧ s'.next_surface = none ∧
      ∃ p, ctx.images[s'.index]? = some p ∧
        s'.current_surface = some (load_surface p sz)

/-- The scan-failure claim: scanning fails with a ScanError whenever the root
    does not exist. -/
def scanFailsOnMissingRootClaim : Prop :=
  ∀ fs : FileSystem, fs.rootExists = false → ∃ e, scan_imagesE fs = Except.error e

/-- The scan-content claim: the scan returns exactly what it would return if
    it kept only regular files. -/
def scanFilesOnlyClaim : Prop :=
  ∀ fs : FileSystem, scan_images fs = scan_images_files_only fs

def fsMissingRoot : FileSystem :=
  { rootExists := false, entries := [], no_root_no_entries := fun _ => rfl }

def fsNoMatches : FileSystem :=
  { rootExists := true,
    entries := [{ path := ["r", "notes.txt"], isFile := true }],
    no_root_no_entries := by simp }

/-- A filesystem whose only entry is a directory named with a .jpg suffix. -/
def fsWithSuffixDir : FileSystem :=
  { rootExists := true,
    entries := [{ path := ["r", "shots.jpg"], isFile := false }],
    no_root_no_entries := by simp }

def fsOneImage : FileSystem :=
  { rootExists := true,
    entries := [{ path := ["r", "a.jpg"], isFile := true }],
    no_root_no_entries := by simp }

/-- A persisted session pointing two images past what fsOneImage now holds. -/
def staleSession : SessionState :=
  { images_root := "r", output_dir := "out", current_index := 2,
    total_images := 5 }

theorem reachable_s3r : Reachable ctx3 s3r :=
  Reachable.step VEvent.redraw (initViewerState 0 size0) s3r
    [Effect.syncDecode ["pics", "a.jpg"] size0, Effect.spawnPreload 1]
    (Reachable.init 0 size0) (by rfl)

theorem reachable_s3rz : Reachable ctx3 s3rz :=
  Reachable.step (VEvent.winResize size1) s3r s3rz [] reachable_s3r (by rfl)

theorem reachable_c3b : Reachable ctx3 c3b :=
  Reachable.step VEvent.redraw (initViewerState 1 size0) c3b
    [Effect.syncDecode ["pics", "b.jpg"] size0, Effect.spawnPreload 2,
     Effect.spawnPreload 0]
    (Reachable.init 1 size0) (by rfl)

theorem reachable_c3c : Reachable ctx3 c3c :=
  Reachable.step VEvent.keyRight c3b c3c
    [Effect.syncDecode ["pics", "c.jpg"] size0,
     Effect.savedState { images_root := "pics", output_dir := "out",
                         current_index := 2, total_images := 3 }]
    reachable_c3b (by rfl)

theorem reachable_c3d : Reachable ctx3 c3d :=
  Reachable.step VEvent.keyLeft c3c c3d
    [Effect.spawnPreload 0,
     Effect.savedState { images_root := "pics", output_dir := "out",
                         current_index := 1, total_images := 3 }]
    reachable_c3c (by rfl)

theorem reachable_c3e : Reachable ctx3 c3e :=
  Reachable.step (VEvent.winResize size1) c3d c3e [] reachable_c3d (by rfl)

/-- Counterexample to claim C1: in the reachable state s3rz (current image
    decoded at size0, window since resized to size1), K_RIGHT parks the old
    current surface in the prev slot: the slot is neither empty nor a decode
    issued for the new currentIndex - 1 at the current viewport size, it is
    the promoted outgoing current buffer. -/
theorem C1_counterexample : ¬ noPromotionClaim := by
  intro h
  have happly := h.1 ctx3 s3rz s3rzR effs3rzR reachable_s3rz (by decide) (by rfl)
  cases happly with
  | inl hnone => exact absurd hnone (by decide)
  | inr hex =>
    obtain ⟨p, hp, hcur⟩ := hex
    have hp2 : some (["pics", "a.jpg"] : ImagePath) = some p := hp
    cases hp2
    exact absurd hcur (by decide)

/-- Claim C1 (amended): on NavigateNext from an interior index the window
    shift retains the outgoing current buffer as the new prev slot buffer
    (prev_surface is assigned the old current_surface and prev_index the old
    index), and symmetrically NavigatePrev retains it as the new next slot
    buffer. -/
theorem C1_shift_retains_current (ctx : VCtx) (s : ViewerState) :
    (∀ s' effs, stepV ctx VEvent.keyRight s = Except.ok (s', effs) →
      s.index < ctx.images.length - 1 →
      s'.prev_surface = s.current_surface ∧ s'.prev_index = some s.index) ∧
    (∀ s' effs, stepV ctx VEvent.keyLeft s = Except.ok (s', effs) →
      0 < s.index →
      s'.next_surface = s.current_surface ∧ s'.next_index = some s.index) := by
  constructor
  · intro s' effs hstep hlt
    simp only [stepV, stepRight, if_pos hlt] at hstep
    split at hstep
    · exact absurd hstep (by simp)
    · simp only [Except.ok.injEq, Prod.mk.injEq] at hstep
      obtain ⟨h1, _⟩ := hstep
      subst h1
      exact ⟨rfl, rfl⟩
  · intro s' effs hstep hlt
    simp only [stepV, stepLeft, if_pos hlt] at hstep
    split at hstep
    · exact absurd hstep (by simp)
    · simp only [Except.ok.injEq, Prod.mk.injEq] at hstep
      obtain ⟨h1, _⟩ := hstep
      subst h1
      exact ⟨rfl, rfl⟩

/-- Witness for C1 at the concrete state c3d: K_RIGHT parks the old current
    surface in prev, K_LEFT parks it in next. -/
theorem C1_witness :
    c3c.prev_surface = c3d.current_surface ∧ c3c.prev_index = some c3d.index ∧
    c3dL.next_surface = c3d.current_surface ∧ c3dL.next_index = some c3d.index := by
  obtain ⟨hR, hL⟩ := C1_shift_retains_current ctx3 c3d
  obtain ⟨h1, h2⟩ := hR c3c
    [Effect.savedState { images_root := "pics", output_dir := "out",
                         current_index := 2, total_images := 3 }]
    (by rfl) (by decide)
  obtain ⟨h3, h4⟩ := hL c3dL
    [Effect.syncDecode ["pics", "a.jpg"] size0,
     Effect.savedState { images_root := "pics", output_dir := "out",
                         current_index := 0, total_images := 3 }]
    (by rfl) (by decide)
  exact ⟨h1, h2, h3, h4⟩

/-- Counterexample to claim C3: in the reachable state c3e two preload jobs
    for target 0 are genuinely in flight (one spawned by the first redraw,
    one by the K_LEFT window shift) and the window was resized in between.
    After the newer completion (decoded at the new size) has been applied,
    the older, superseded completion is not discarded: it overwrites the
    fresher prev slot with a buffer scaled for the old size, so delivery of a
    stale job mutates observable state. -/
theorem C3_counterexample : ¬ staleDiscardClaim := by
  intro h
  have happly := h ctx3 c3e 0 size1 size0 c3f [] reachable_c3e (by rfl)
  have hcomputed : stepV ctx3 (VEvent.preloadDone 0 size0) c3f =
      Except.ok ({ c3f with
        prev_surface := some (load_surface ["pics", "a.jpg"] size0),
        prev_index := some 0 }, []) := by rfl
  rw [hcomputed] at happly
  exact absurd happly (by decide)

/-- Claim C3 (amended): the only staleness check a completion undergoes is
    the index match at delivery time: a completion whose target index is
    neither currentIndex + 1 nor currentIndex - 1 when it arrives leaves the
    viewer state unchanged.  There are no generation tags, so a superseded
    job whose target happens to match the window again is applied rather than
    discarded. -/
theorem C3_discard_by_index_only (ctx : VCtx) (s : ViewerState) (t : Nat)
    (sz : Size) (hnext : t ≠ s.index + 1)
    (hprev : (t : Int) ≠ (s.index : Int) - 1) :
    stepV ctx (VEvent.preloadDone t sz) s = Except.ok (s, []) := by
  simp only [stepV, preload_surface]
  split
  · rfl
  · split
    · rfl
    · rfl

/-- Witness for C3 at a concrete input: a completion for target 5 delivered
    at index 1 is discarded without any state change. -/
theorem C3_witness : stepV ctx3 (VEvent.preloadDone 5 size0) c3b =
    Except.ok (c3b, []) :=
  C3_discard_by_index_only ctx3 c3b 5 size0 (by decide) (by decide)

/-- Claim C4: when K_RIGHT fires while the next slot holds a buffer whose
    target index equals currentIndex + 1, the navigation succeeds, the new
    current buffer is exactly that cached buffer, no synchronous decode is
    performed, and the only preload spawned targets the new neighbor
    currentIndex + 2, never currentIndex + 1, so the image at
    currentIndex + 1 is not decoded during that navigation. -/
theorem C4_promotion (ctx : VCtx) (s : ViewerState) (b : Surface)
    (hrange : s.index < ctx.images.length - 1)
    (hbuf : s.next_surface = some b)
    (hidx : s.next_index = some (s.index + 1)) :
    ∃ s' effs, stepV ctx VEvent.keyRight s = Except.ok (s', effs) ∧
      s'.current_surface = some b ∧
      (∀ p sz, Effect.syncDecode p sz ∉ effs) ∧
      (∀ t, Effect.spawnPreload t ∈ effs → t = s.index + 2) := by
  have h2 : s.index + 1 < ctx.images.length := by omega
  have hp : ctx.images[s.index + 1]? = some ctx.images[s.index + 1] :=
    List.getElem?_eq_getElem h2
  have hstep : stepV ctx VEvent.keyRight s = Except.ok
      ({ index := s.index + 1, current_surface := some b,
         next_surface := none, next_index := none,
         prev_surface := s.current_surface, prev_index := some s.index,
         screenSize := s.screenSize },
       (if s.index + 2 < ctx.images.length
        then [Effect.spawnPreload (s.index + 2)] else [])
         ++ [Effect.savedState
               { images_root := ctx.images_root, output_dir := ctx.output_dir,
                 current_index := s.index + 1,
                 total_images := ctx.images.length }]) := by
    simp [stepV, stepRight, if_pos hrange, hp, hbuf, hidx]
  refine ⟨_, _, hstep, rfl, ?_, ?_⟩
  · intro p sz hmem
    by_cases hsp : s.index + 2 < ctx.images.length <;> simp [hsp] at hmem
  · intro t hmem
    by_cases hsp : s.index + 2 < ctx.images.length <;> simp [hsp] at hmem
    exact hmem

/-- Witness for C4 at the concrete state s4: the cached next buffer is
    promoted with no synchronous decode. -/
theorem C4_witness : ∃ s' effs,
    stepV ctx3 VEvent.keyRight s4 = Except.ok (s', effs) ∧
    s'.current_surface = some (load_surface ["pics", "b.jpg"] size0) ∧
    (∀ p sz, Effect.syncDecode p sz ∉ effs) ∧
    (∀ t, Effect.spawnPreload t ∈ effs → t = s4.index + 2) :=
  C4_promotion ctx3 s4 (load_surface ["pics", "b.jpg"] size0) (by decide) rfl rfl

/-- Counterexample to claim C5: from the reachable state s3r (current buffer
    decoded at size0) a resize to size1 leaves the current buffer untouched:
    it is not re-decoded for the new viewport size, contradicting the claimed
    invalidate-and-redecode behavior. -/
theorem C5_counterexample : ¬ resizeClaim := by
  intro h
  obtain ⟨-, -, -, p, hp, hcur⟩ :=
    h ctx3 s3r size1 { s3r with screenSize := size1 } [] reachable_s3r (by rfl)
  have hp2 : some (["pics", "a.jpg"] : ImagePath) = some p := hp
  cases hp2
  exact absurd hcur (by decide)

/-- Claim C5 (amended): the event loop has no Resize case: a window resize
    changes only what subsequent get_size() calls report; the current buffer
    and both prefetch slots are left exactly as they were (still scaled for
    the old viewport), no synchronous re-decode happens, no slot is cleared
    and no preload is issued. -/
theorem C5_resize_unhandled (ctx : VCtx) (s : ViewerState) (sz : Size) :
    stepV ctx (VEvent.winResize sz) s =
      Except.ok ({ s with screenSize := sz }, []) := rfl

/-- Claim C6: NavigatePrev at index 0 and NavigateNext at the last index are
    complete no-ops, not errors: the state (index, current buffer, both
    slots) is returned unchanged and no effect is performed, so no decode job
    runs and the persisted session record is not rewritten. -/
theorem C6_boundary_noop (ctx : VCtx) (s : ViewerState) :
    (s.index = 0 → stepV ctx VEvent.keyLeft s = Except.ok (s, [])) ∧
    (s.index = ctx.images.length - 1 →
      stepV ctx VEvent.keyRight s = Except.ok (s, [])) := by
  constructor
  · intro h
    simp [stepV, stepLeft, h]
  · intro h
    simp [stepV, stepRight, h]

/-- Witness for C6 on a one-image catalog, where index 0 is also the last
    index: both boundary keys leave the state unchanged with no effects. -/
theorem C6_witness :
    stepV ctx1 VEvent.keyLeft s6 = Except.ok (s6, []) ∧
    stepV ctx1 VEvent.keyRight s6 = Except.ok (s6, []) :=
  ⟨(C6_boundary_noop ctx1 s6).1 rfl, (C6_boundary_noop ctx1 s6).2 rfl⟩

/-- Witness for C2 at the concrete reachable state s3rr, two steps into a
    run (initial redraw, then one K_RIGHT). -/
theorem C2_witness : slotInv s3rr :=
  C2_slot_invariant
    (Reachable.step VEvent.keyRight s3r s3rr
      [Effect.syncDecode ["pics", "b.jpg"] size0, Effect.spawnPreload 2,
       Effect.savedState { images_root := "pics", output_dir := "out",
                           current_index := 1, total_images := 3 }]
      reachable_s3r (by rfl))

/-- Counterexample to claim C7: with a nonexistent root, scan_images does not
    fail with a ScanError: it returns normally (with the empty list). -/
theorem C7_counterexample : ¬ scanFailsOnMissingRootClaim := by
  intro h
  obtain ⟨e, he⟩ := h fsMissingRoot rfl
  simp [scan_imagesE] at he

/-- Claim C7 (amended): the catalog scan never fails: when the root does not
    exist the walk yields nothing and the empty sequence is returned (so the
    resume path, which performs no existence check, proceeds on an empty
    catalog instead of failing), and when the root exists but no entry has a
    recognized suffix the empty sequence is returned as well, the error
    decision being left to the caller (the new-operation prompt exits on it,
    the resume prompt does not look). -/
theorem C7_scan_never_fails (fs : FileSystem) :
    (fs.rootExists = false → scan_imagesE fs = Except.ok []) ∧
    ((∀ en ∈ fs.entries, hasSupportedSuffix en.path = false) →
      scan_imagesE fs = Except.ok []) := by
  constructor
  · intro h
    simp [scan_imagesE, scan_images, fs.no_root_no_entries h]
  · intro h
    simp only [scan_imagesE, scan_images, Except.ok.injEq]
    rw [List.filter_eq_nil_iff]
    intro p hp
    rw [List.Perm.mem_iff (List.perm_insertionSort pathLeR _)] at hp
    obtain ⟨en, hen, rfl⟩ := List.mem_map.mp hp
    simp [h en hen]

/-- Witness for C7: a missing root and an existing root holding only a text
    file both scan to Except.ok []. -/
theorem C7_witness :
    scan_imagesE fsMissingRoot = Except.ok [] ∧
    scan_imagesE fsNoMatches = Except.ok [] :=
  ⟨(C7_scan_never_fails fsMissingRoot).1 rfl,
   (C7_scan_never_fails fsNoMatches).2 (by decide)⟩

/-- Counterexample to claim C8: a filesystem whose only entry is a directory
    named shots.jpg: the scan returns that directory even though no regular
    file matches, so the result is not "exactly the regular files". -/
theorem C8_counterexample : ¬ scanFilesOnlyClaim := by
  intro h
  exact absurd (h fsWithSuffixDir) (by decide)

/-- Claim C8 (amended): for every filesystem state, scan_images returns
    exactly the walked entries, regular files and directories alike, whose
    final component carries a recognized suffix compared case-insensitively,
    in sorted path order; as a function of the filesystem state it is
    deterministic. -/
theorem C8_scan_contents_sorted (fs : FileSystem) :
    (∀ p : ImagePath, p ∈ scan_images fs ↔
      ((∃ en ∈ fs.entries, en.path = p) ∧ hasSupportedSuffix p = true)) ∧
    List.Sorted pathLeR (scan_images fs) := by
  constructor
  · intro p
    simp only [scan_images, List.mem_filter,
      (List.perm_insertionSort pathLeR _).mem_iff, List.mem_map]
  · exact List.Pairwise.sublist (List.filter_sublist _)
      (List.sorted_insertionSort pathLeR _)

/-- Witness for C8 at fsWithSuffixDir: the matching entry is in the scan and
    the scan is sorted. -/
theorem C8_witness :
    (["r", "shots.jpg"] : ImagePath) ∈ scan_images fsWithSuffixDir ∧
    List.Sorted pathLeR (scan_images fsWithSuffixDir) := by
  constructor
  · exact ((C8_scan_contents_sorted fsWithSuffixDir).1 _).mpr
      ⟨⟨{ path := ["r", "shots.jpg"], isFile := false },
        by simp [fsWithSuffixDir], rfl⟩, by decide⟩
  · exact (C8_scan_contents_sorted fsWithSuffixDir).2

/-- Claim C9: prompt_resume_operation hands the persisted current_index to
    the viewer with no validation against the freshly re-scanned catalog, and
    for a filesystem state now holding fewer images than that index the
    viewer's first draw, which evaluates images[index], raises an uncaught
    IndexError rather than clamping the index or reporting an error. -/
theorem C9_resume_unvalidated_index :
    (∀ (fs : FileSystem) (st : SessionState) (sz : Size),
      ((prompt_resume_operation fs st sz).2).index = st.current_index) ∧
    (scan_images fsOneImage).length = 1 ∧
    stepV (prompt_resume_operation fsOneImage staleSession size0).1
        VEvent.redraw (prompt_resume_operation fsOneImage staleSession size0).2 =
      Except.error ViewerError.indexError := by
  refine ⟨fun fs st sz => rfl, by decide, by decide⟩

/-- Claim C10: persisting a session record and then loading it back is the
    identity on the persisted record: load_state returns the stored document
    intact, and each of the four fields reads back as the corresponding field
    of the record. -/
theorem C10_save_load_roundtrip (r : SessionState) (old : StateFile) :
    load_state (save_state (sessionToJson r) old) = some (sessionToJson r) ∧
    jsonGet (sessionToJson r) "images_root" = some (Json.str r.images_root) ∧
    jsonGet (sessionToJson r) "output_dir" = some (Json.str r.output_dir) ∧
    jsonGet (sessionToJson r) "current_index" =
      some (Json.int (r.current_index : Int)) ∧
    jsonGet (sessionToJson r) "total_images" =
      some (Json.int (r.total_images : Int)) := by
  refine ⟨rfl, ?_, ?_, ?_, ?_⟩ <;> rfl
